import Mathlib

/-!
Shallow embedding of the asynchronous HTTP fetcher in
`src/cpp/net/url_fetcher.cc` / `src/cpp/net/url_fetcher.h` of the
certificate-transparency repository, together with proofs about the
request-normalisation function and the per-request fetch transaction
(construction, `MakeRequest`, `RequestDone`), viewed as a sequential
process on the reactor thread that emits connection-pool and task events.
-/

namespace CertTrans

/-- Modelled from the spec: the `ci_less<std::string>` comparator of
`util/compare.h` (not under `src/`), a case-insensitive lexicographic
"less than" on strings: characters are compared after lowercasing, in
lexicographic order. -/
def ciLess : List Char → List Char → Bool
  | [], [] => false
  | [], _ :: _ => true
  | _ :: _, [] => false
  | a :: as, b :: bs =>
    if a.toLower < b.toLower then true
    else if b.toLower < a.toLower then false
    else ciLess as bs

/-- The `ci_less` comparator lifted to `String` (compares the underlying
character lists case-insensitively). -/
def ci_less (a b : String) : Bool := ciLess a.data b.data

/-- The case-insensitive key of a string: its characters, lowercased.
Two strings are equivalent under `ci_less` exactly when their keys agree. -/
def ciKey (s : String) : List Char := s.data.map Char.toLower

/-- Comparator equivalence, as `std::multimap` uses it: neither key is
`ci_less` than the other. -/
def ciEquiv (a b : String) : Bool := !ci_less a b && !ci_less b a

/-- `UrlFetcher::Headers` (url_fetcher.h:24-25), a
`std::multimap<std::string, std::string, ci_less<std::string>>`, modelled
as an association list ordered by the comparator with equivalent keys in
insertion order. -/
abbrev Headers := List (String × String)

/-- `std::multimap::insert`: the new pair goes at the upper bound of its
equal range, i.e. before the first strictly greater key, after any
equivalent keys already present (preserving insertion order). -/
def mmInsert (k v : String) : Headers → Headers
  | [] => [(k, v)]
  | p :: rest => if ci_less k p.1 then (k, v) :: p :: rest else p :: mmInsert k v rest

/-- `std::multimap::find`: the first entry whose key is comparator-equivalent
to the probe, or `none` when the probe is absent (`find(...) == end()`). -/
def mmFind (k : String) : Headers → Option (String × String)
  | [] => none
  | p :: rest => if ciEquiv k p.1 then some p else mmFind k rest

/-- `std::multimap::equal_range`: every entry whose key is
comparator-equivalent to the probe, in map order. -/
def mmEqualRange (k : String) (h : Headers) : Headers :=
  h.filter fun p => ciEquiv k p.1

/-- `UrlFetcher::Verb` (url_fetcher.h:27-32). -/
inductive Verb
  | GET
  | POST
  | PUT
  | DELETE
deriving DecidableEq

/-- Modelled from the spec: the `URL` value type of `net/url.h` (not under
`src/`), with accessors for protocol, host, port, path and query, and a
path setter used during normalisation. -/
structure URL where
  protocol : String
  host : String
  port : Nat
  path : String
  query : String
deriving DecidableEq

/-- `UrlFetcher::Request` (url_fetcher.h:34-48). The deadline is an
absolute monotonic timestamp, modelled in clock ticks; the zero value is
the "unset" sentinel. -/
structure Request where
  verb : Verb
  url : URL
  headers : Headers
  body : String
  deadline : Nat
deriving DecidableEq

/-- `UrlFetcher::Response` (url_fetcher.h:50-57). -/
structure Response where
  status_code : Int
  headers : Headers
  body : String
deriving DecidableEq

/-- The `url_fetcher_default_timeout_seconds` flag (url_fetcher.cc:25-26),
at its default value. -/
def FLAGS_url_fetcher_default_timeout_seconds : Nat := 60

/-- First step of `NormaliseRequest` (url_fetcher.cc:153-156): a zero
deadline is replaced by now plus the default timeout. -/
def normDeadline (now : Nat) (req : Request) : Request :=
  if req.deadline = 0 then
    { req with deadline := now + FLAGS_url_fetcher_default_timeout_seconds }
  else req

/-- Second step of `NormaliseRequest` (url_fetcher.cc:158-160): an empty
URL path becomes "/". -/
def normPath (req : Request) : Request :=
  if req.url.path = "" then { req with url := { req.url with path := "/" } } else req

/-- Third step of `NormaliseRequest` (url_fetcher.cc:162-164): when no
`Host` header is found (case-insensitively), `Host: url.host` is inserted. -/
def normHost (req : Request) : Request :=
  if mmFind "Host" req.headers = none then
    { req with headers := mmInsert "Host" req.url.host req.headers }
  else req

/-- `NormaliseRequest` (url_fetcher.cc:152-167): the three normalisation
steps applied in source order. -/
def NormaliseRequest (now : Nat) (req : Request) : Request :=
  normHost (normPath (normDeadline now req))

/-- The `util::error` codes the fetcher uses (plus OK). -/
inductive ErrorCode
  | OK
  | INVALID_ARGUMENT
  | DEADLINE_EXCEEDED
  | INTERNAL
  | UNKNOWN
  | FAILED_PRECONDITION
deriving DecidableEq

/-- Observable events of one fetch transaction: connection-pool
acquisition (`pool_->Get`), release (`pool_->Put`), and task completion
(`task_->Return(code)`). -/
inductive Event
  | acquire
  | release
  | taskReturn (code : ErrorCode)
deriving DecidableEq

/-- The data carried by a non-null `evhttp_request*` handed to the
completion callback: response code, input headers (in wire order) and
input buffer contents. -/
structure TResponse where
  status : Int
  headers : List (String × String)
  body : String
deriving DecidableEq

/-- The external behaviour a single transaction observes: the monotonic
clock when `MakeRequest` runs, whether `evbuffer_add_reference` fails,
whether `evhttp_make_request` fails, and the `evhttp_request*` (possibly
null) the transport eventually passes to the completion callback. -/
structure TransportEnv where
  sendNow : Nat
  bodyAttachFails : Bool
  submitFails : Bool
  callback : Option TResponse
deriving DecidableEq

/-- The `State` constructor (url_fetcher.cc:170-183): the stored request is
the normalised input, and a non-"http" protocol returns the task with
INVALID_ARGUMENT immediately. Yields the stored request and the events
emitted during construction. -/
def StateInit (now : Nat) (req : Request) : Request × List Event :=
  let r := NormaliseRequest now req
  if r.url.protocol ≠ "http" then (r, [Event.taskReturn ErrorCode.INVALID_ARGUMENT])
  else (r, [])

/-- `State::MakeRequest` (url_fetcher.cc:186-235) on the stored (already
normalised) request: deadline check, body attachment, connection
acquisition and submission. Yields whether a connection is still held on
exit (submission succeeded and the callback is pending) and the events
emitted. -/
def MakeRequest (req : Request) (env : TransportEnv) : Bool × List Event :=
  if req.deadline ≤ env.sendNow then
    (false, [Event.taskReturn ErrorCode.DEADLINE_EXCEEDED])
  else if req.body ≠ "" ∧ env.bodyAttachFails then
    (false, [Event.taskReturn ErrorCode.INTERNAL])
  else if env.submitFails then
    (false, [Event.acquire, Event.release, Event.taskReturn ErrorCode.INTERNAL])
  else
    (true, [Event.acquire])

/-- The response-header copy of `State::RequestDone` (url_fetcher.cc:269-273):
the output headers are cleared and every wire header is inserted into the
case-insensitive multimap in order. -/
def copyHeaders (l : List (String × String)) : Headers :=
  l.foldl (fun h p => mmInsert p.1 p.2 h) []

/-- `State::RequestDone` (url_fetcher.cc:238-283): the held connection is
put back first, then a null request returns UNKNOWN; otherwise the status
code is stored into the output response, a code below 100 returns
FAILED_PRECONDITION, and otherwise headers and body are copied and the
task returns OK. Yields the updated output response and the events
emitted. -/
def RequestDone (input : Option TResponse) (resp : Response) : Response × List Event :=
  match input with
  | none => (resp, [Event.release, Event.taskReturn ErrorCode.UNKNOWN])
  | some t =>
    let resp1 : Response := { resp with status_code := t.status }
    if resp1.status_code < 100 then
      (resp1, [Event.release, Event.taskReturn ErrorCode.FAILED_PRECONDITION])
    else
      ({ status_code := t.status, headers := copyHeaders t.headers, body := t.body },
       [Event.release, Event.taskReturn ErrorCode.OK])

/-- `UrlFetcher::Fetch` (url_fetcher.cc:304-311) and the statement-level
continuation of the transaction it sets in motion: the `State` constructor
runs (normalisation and protocol check), then the unconditionally
scheduled `MakeRequest` runs, and when submission succeeded the transport
invokes `RequestDone` once with the callback input. This is the chain of
statements the source links together, recording every call the code
issues; on a request the constructor already returned, the real process
destroys the `State` before the callback (see `runFetchToDestruction`),
so past that point this trace records the calls the code would issue
rather than a surviving execution. Yields the final output response and
the event trace. -/
def runFetch (ctorNow : Nat) (req : Request) (env : TransportEnv) (resp : Response) :
    Response × List Event :=
  let s := StateInit ctorNow req
  let m := MakeRequest s.1 env
  if m.1 then
    let d := RequestDone env.callback resp
    (d.1, s.2 ++ m.2 ++ d.2)
  else
    (resp, s.2 ++ m.2)

/-- The predicate selecting connection acquisitions in a trace. -/
def isAcquire : Event → Bool
  | Event.acquire => true
  | _ => false

/-- The predicate selecting connection releases in a trace. -/
def isRelease : Event → Bool
  | Event.release => true
  | _ => false

/-- How many times the transaction acquired a connection from the pool. -/
def countAcquires (evts : List Event) : Nat := evts.countP isAcquire

/-- How many times the transaction put a connection back into the pool. -/
def countReleases (evts : List Event) : Nat := evts.countP isRelease

/-- The sequence of `task_->Return` calls in a trace, in order. -/
def returnsOf (evts : List Event) : List ErrorCode :=
  evts.filterMap fun e =>
    match e with
    | Event.taskReturn c => some c
    | _ => none

/-- The status the task completes with: `Return` is terminal, so the first
`taskReturn` in the trace decides the observed completion. -/
def completion (evts : List Event) : Option ErrorCode := (returnsOf evts).head?

/-- The transaction up to the destruction of its `State`.
`task->DeleteWhenDone(state)` (url_fetcher.cc:308) destroys the `State`
when the task finishes. When the constructor already returned the task,
the task finishes as soon as `Fetch` releases its `TaskHold`
(url_fetcher.cc:305), so on the reactor queue the `State` is destroyed
right after the unconditionally scheduled `MakeRequest` has run and
before any transport callback can fire: the trace ends there, and a
connection `MakeRequest` acquired is never put back, since the destructor
(url_fetcher.cc:66-68) does not release a held connection but CHECK-fails
on one. When the constructor returned nothing, the task finishes only at
the terminal `Return` of `MakeRequest` or `RequestDone`, and destruction
observes no held connection. -/
def runFetchToDestruction (ctorNow : Nat) (req : Request) (env : TransportEnv)
    (resp : Response) : Response × List Event :=
  let s := StateInit ctorNow req
  let m := MakeRequest s.1 env
  if s.2.isEmpty then
    if m.1 then
      let d := RequestDone env.callback resp
      (d.1, s.2 ++ m.2 ++ d.2)
    else (resp, s.2 ++ m.2)
  else (resp, s.2 ++ m.2)

/-- Whether the `State` is destroyed while still holding a pooled
connection: the task finished at construction, yet the scheduled
`MakeRequest` acquired a connection and exited with it held, so the
destructor runs on a state whose `conn_` is non-null, its `CHECK(!conn_)`
(url_fetcher.cc:67) fires, and the handle is never released. -/
def destroyedHoldingConnection (ctorNow : Nat) (req : Request) (env : TransportEnv) : Bool :=
  !(StateInit ctorNow req).2.isEmpty && (MakeRequest (StateInit ctorNow req).1 env).1

/-- The comparator never ranks a character list below itself. -/
lemma ciLess_irrefl : ∀ as, ciLess as as = false := by
  intro as
  induction as with
  | nil => rfl
  | cons a t ih => simp [ciLess, ih]

/-- Two character lists that neither comparator call separates have the
same lowercased characters. -/
lemma ciLess_antisymm_eq :
    ∀ as bs, ciLess as bs = false → ciLess bs as = false →
      as.map Char.toLower = bs.map Char.toLower := by
  intro as
  induction as with
  | nil =>
    intro bs h1 _
    cases bs with
    | nil => rfl
    | cons b t => simp [ciLess] at h1
  | cons a t ih =>
    intro bs h1 h2
    cases bs with
    | nil => simp [ciLess] at h2
    | cons b u =>
      by_cases hab : a.toLower < b.toLower
      · simp [ciLess, hab] at h1
      · by_cases hba : b.toLower < a.toLower
        · simp [ciLess, hba, hab] at h2
        · have heq : a.toLower = b.toLower := le_antisymm (not_lt.mp hba) (not_lt.mp hab)
          simp only [ciLess, if_neg hab, if_neg hba] at h1 h2
          simp [heq, ih u h1 h2]

/-- Character lists with the same lowercased characters are comparator
equivalent. -/
lemma ciLess_eq_false_of_map_eq :
    ∀ as bs, as.map Char.toLower = bs.map Char.toLower → ciLess as bs = false := by
  intro as
  induction as with
  | nil =>
    intro bs h
    cases bs with
    | nil => rfl
    | cons b u => simp at h
  | cons a t ih =>
    intro bs h
    cases bs with
    | nil => simp at h
    | cons b u =>
      simp only [List.map_cons, List.cons.injEq] at h
      simp [ciLess, h.1, ih u h.2]

/-- Comparator equivalence of strings coincides with equality of their
case-insensitive keys. -/
lemma ciEquiv_iff (a b : String) : ciEquiv a b = true ↔ ciKey a = ciKey b := by
  constructor
  · intro h
    simp only [ciEquiv, Bool.and_eq_true, Bool.not_eq_true'] at h
    exact ciLess_antisymm_eq a.data b.data h.1 h.2
  · intro h
    simp only [ciEquiv, Bool.and_eq_true, Bool.not_eq_true', ci_less]
    exact ⟨ciLess_eq_false_of_map_eq a.data b.data h,
           ciLess_eq_false_of_map_eq b.data a.data h.symm⟩

/-- Every string is comparator equivalent to itself. -/
lemma ciEquiv_refl (a : String) : ciEquiv a a = true := (ciEquiv_iff a a).mpr rfl

/-- Case-insensitive keys agree under comparator equivalence, so a key
just inserted is always found. -/
lemma mmFind_mmInsert_ne_none (k v : String) (h : Headers) :
    mmFind k (mmInsert k v h) ≠ none := by
  induction h with
  | nil => simp [mmInsert, mmFind, ciEquiv_refl]
  | cons p t ih =>
    by_cases hc : ci_less k p.1 = true
    · simp [mmInsert, hc, mmFind, ciEquiv_refl]
    · by_cases he : ciEquiv k p.1 = true
      · simp [mmInsert, hc, mmFind, he]
      · simp [mmInsert, hc, mmFind, he, ih]

/-- Multimap insertion only repositions the new pair: the entries are the
old ones plus the new one. -/
lemma mmInsert_perm (k v : String) (h : Headers) :
    List.Perm (mmInsert k v h) ((k, v) :: h) := by
  induction h with
  | nil => simp [mmInsert]
  | cons p t ih =>
    by_cases hc : ci_less k p.1 = true
    · simp [mmInsert, hc]
    · simp only [mmInsert, hc, if_false, Bool.false_eq_true]
      exact (List.Perm.cons p ih).trans (List.Perm.swap (k, v) p t)

/-- Copying wire headers into the multimap preserves the collection of
header entries (up to map ordering). -/
lemma copyHeaders_perm (l : List (String × String)) :
    List.Perm (copyHeaders l) l := by
  have main : ∀ (l : List (String × String)) (acc : Headers),
      List.Perm (l.foldl (fun h p => mmInsert p.1 p.2 h) acc) (l ++ acc) := by
    intro l
    induction l with
    | nil => intro acc; simp
    | cons a t ih =>
      intro acc
      have h1 := ih (mmInsert a.1 a.2 acc)
      have h2 : List.Perm (t ++ mmInsert a.1 a.2 acc) (t ++ (a :: acc)) :=
        List.Perm.append_left t (mmInsert_perm a.1 a.2 acc)
      have h3 : List.Perm (t ++ (a :: acc)) (a :: (t ++ acc)) := List.perm_middle
      exact ((h1.trans h2).trans h3)
  simpa [copyHeaders] using main l []

/-- The deadline step never touches the URL. -/
lemma normDeadline_url (now : Nat) (req : Request) :
    (normDeadline now req).url = req.url := by
  unfold normDeadline; split <;> rfl

/-- The deadline step never touches the headers. -/
lemma normDeadline_headers (now : Nat) (req : Request) :
    (normDeadline now req).headers = req.headers := by
  unfold normDeadline; split <;> rfl

/-- After the deadline step the deadline is never the zero sentinel. -/
lemma normDeadline_ne_zero (now : Nat) (req : Request) :
    (normDeadline now req).deadline ≠ 0 := by
  unfold normDeadline
  split
  · simp [FLAGS_url_fetcher_default_timeout_seconds]
  · assumption

/-- The path step never touches the deadline. -/
lemma normPath_deadline (req : Request) : (normPath req).deadline = req.deadline := by
  unfold normPath; split <;> rfl

/-- The path step never touches the headers. -/
lemma normPath_headers (req : Request) : (normPath req).headers = req.headers := by
  unfold normPath; split <;> rfl

/-- The path step never touches the protocol. -/
lemma normPath_protocol (req : Request) : (normPath req).url.protocol = req.url.protocol := by
  unfold normPath; split <;> rfl

/-- The path step never touches the host. -/
lemma normPath_host (req : Request) : (normPath req).url.host = req.url.host := by
  unfold normPath; split <;> rfl

/-- After the path step the path is never empty. -/
lemma normPath_ne_empty (req : Request) : (normPath req).url.path ≠ "" := by
  unfold normPath
  split
  · intro h; simp at h
  · assumption

/-- The host step never touches the deadline. -/
lemma normHost_deadline (req : Request) : (normHost req).deadline = req.deadline := by
  unfold normHost; split <;> rfl

/-- The host step never touches the URL. -/
lemma normHost_url (req : Request) : (normHost req).url = req.url := by
  unfold normHost; split <;> rfl

/-- After the host step a `Host` header is always found. -/
lemma normHost_found (req : Request) : mmFind "Host" (normHost req).headers ≠ none := by
  unfold normHost
  split
  · exact mmFind_mmInsert_ne_none "Host" req.url.host req.headers
  · assumption

/-- A normalised request never carries the zero deadline sentinel. -/
lemma normalise_deadline_ne_zero (now : Nat) (req : Request) :
    (NormaliseRequest now req).deadline ≠ 0 := by
  unfold NormaliseRequest
  rw [normHost_deadline, normPath_deadline]
  exact normDeadline_ne_zero now req

/-- A normalised request never has an empty path. -/
lemma normalise_path_ne_empty (now : Nat) (req : Request) :
    (NormaliseRequest now req).url.path ≠ "" := by
  unfold NormaliseRequest
  rw [normHost_url]
  exact normPath_ne_empty (normDeadline now req)

/-- A normalised request always has a `Host` header. -/
lemma normalise_host_found (now : Nat) (req : Request) :
    mmFind "Host" (NormaliseRequest now req).headers ≠ none := by
  unfold NormaliseRequest
  exact normHost_found (normPath (normDeadline now req))

/-- Normalisation never changes the protocol. -/
lemma normalise_protocol (now : Nat) (req : Request) :
    (NormaliseRequest now req).url.protocol = req.url.protocol := by
  unfold NormaliseRequest
  rw [normHost_url, normPath_protocol, normDeadline_url]

/-- C4: normalisation defaults a zero deadline to now plus the configured
default timeout (60 seconds), replaces an empty URL path by "/", and
inserts `Host: url.host` exactly when no `Host` header is found
case-insensitively; in each other case the respective field is left as
given. -/
theorem C4_normalisation (now : Nat) (req : Request) :
    (req.deadline = 0 →
      (NormaliseRequest now req).deadline =
        now + FLAGS_url_fetcher_default_timeout_seconds) ∧
    (req.deadline ≠ 0 → (NormaliseRequest now req).deadline = req.deadline) ∧
    (req.url.path = "" → (NormaliseRequest now req).url.path = "/") ∧
    (req.url.path ≠ "" → (NormaliseRequest now req).url.path = req.url.path) ∧
    (mmFind "Host" req.headers = none →
      (NormaliseRequest now req).headers = mmInsert "Host" req.url.host req.headers) ∧
    (mmFind "Host" req.headers ≠ none →
      (NormaliseRequest now req).headers = req.headers) ∧
    FLAGS_url_fetcher_default_timeout_seconds = 60 := by
  have hdl : (NormaliseRequest now req).deadline = (normDeadline now req).deadline := by
    unfold NormaliseRequest
    rw [normHost_deadline, normPath_deadline]
  have hpth : (NormaliseRequest now req).url.path = (normPath (normDeadline now req)).url.path := by
    unfold NormaliseRequest
    rw [normHost_url]
  have hhd : (normPath (normDeadline now req)).headers = req.headers := by
    rw [normPath_headers, normDeadline_headers]
  have hho : (normPath (normDeadline now req)).url.host = req.url.host := by
    rw [normPath_host, normDeadline_url]
  refine ⟨?_, ?_, ?_, ?_, ?_, ?_, rfl⟩
  · intro h
    rw [hdl]
    unfold normDeadline
    rw [if_pos h]
  · intro h
    rw [hdl]
    unfold normDeadline
    rw [if_neg h]
  · intro h
    rw [hpth]
    unfold normPath
    rw [normDeadline_url, if_pos h]
  · intro h
    rw [hpth]
    unfold normPath
    rw [normDeadline_url, if_neg h]
    exact normDeadline_url now req ▸ rfl
  · intro h
    unfold NormaliseRequest normHost
    rw [hhd, if_pos h, hho]
  · intro h
    unfold NormaliseRequest normHost
    rw [hhd, if_neg h]
    exact hhd

/-- A request exercising every normalisation rule: unset deadline, empty
path, no `Host` header. -/
def c4ReqA : Request := ⟨Verb.GET, ⟨"http", "example.com", 80, "", ""⟩, [], "", 0⟩

/-- A request exercising no normalisation rule: explicit deadline,
non-empty path, and a case-variant `host` header already present. -/
def c4ReqB : Request :=
  ⟨Verb.GET, ⟨"http", "example.com", 80, "/x", ""⟩, [("host", "me")], "", 7⟩

/-- Witness for C4 at concrete requests, on both sides of each rule. -/
theorem C4_normalisation_witness :
    (NormaliseRequest 5 c4ReqA).deadline = 5 + FLAGS_url_fetcher_default_timeout_seconds ∧
    (NormaliseRequest 5 c4ReqA).url.path = "/" ∧
    (NormaliseRequest 5 c4ReqA).headers = mmInsert "Host" "example.com" [] ∧
    (NormaliseRequest 5 c4ReqB).deadline = 7 ∧
    (NormaliseRequest 5 c4ReqB).url.path = "/x" ∧
    (NormaliseRequest 5 c4ReqB).headers = [("host", "me")] := by
  obtain ⟨a1, _, a3, _, a5, _, _⟩ := C4_normalisation 5 c4ReqA
  obtain ⟨_, b2, _, b4, _, b6, _⟩ := C4_normalisation 5 c4ReqB
  exact ⟨a1 rfl, a3 rfl, a5 rfl, b2 (by decide), b4 (by decide), b6 (by decide)⟩

/-- C10: normalisation is idempotent: a normalised request has a non-zero
deadline, a non-empty path and a `Host` header, so a second pass (at any
later clock reading) changes nothing. -/
theorem C10_normalise_idempotent (now1 now2 : Nat) (req : Request) :
    NormaliseRequest now2 (NormaliseRequest now1 req) = NormaliseRequest now1 req := by
  have h1 : normDeadline now2 (NormaliseRequest now1 req) = NormaliseRequest now1 req := by
    unfold normDeadline
    rw [if_neg (normalise_deadline_ne_zero now1 req)]
  have h2 : normPath (NormaliseRequest now1 req) = NormaliseRequest now1 req := by
    unfold normPath
    rw [if_neg (normalise_path_ne_empty now1 req)]
  have h3 : normHost (NormaliseRequest now1 req) = NormaliseRequest now1 req := by
    unfold normHost
    rw [if_neg (normalise_host_found now1 req)]
  show normHost (normPath (normDeadline now2 (NormaliseRequest now1 req))) =
    NormaliseRequest now1 req
  rw [h1, h2, h3]

/-- C8: a null transport response makes `RequestDone` put the connection
back first, then return the task with UNKNOWN, leaving the output response
untouched. -/
theorem C8_null_response (resp : Response) :
    RequestDone none resp = (resp, [Event.release, Event.taskReturn ErrorCode.UNKNOWN]) := rfl

/-- C9: multimap keys that agree case-insensitively behave as one key: a
value inserted under one spelling is found under another, and two values
inserted under case-variant spellings are both kept, in insertion order,
and both retrieved by an equal-range query under yet another spelling. -/
theorem C9_case_insensitive_multimap (k1 kf k2 kr v1 v2 : String)
    (hf : ciKey kf = ciKey k1) (h2 : ciKey k2 = ciKey k1) (hr : ciKey kr = ciKey k1) :
    mmFind kf (mmInsert k1 v1 []) = some (k1, v1) ∧
    mmInsert k2 v2 (mmInsert k1 v1 []) = [(k1, v1), (k2, v2)] ∧
    mmEqualRange kr (mmInsert k2 v2 (mmInsert k1 v1 [])) = [(k1, v1), (k2, v2)] := by
  have ef : ciEquiv kf k1 = true := (ciEquiv_iff kf k1).mpr hf
  have e2 : ciEquiv k2 k1 = true := (ciEquiv_iff k2 k1).mpr h2
  have er1 : ciEquiv kr k1 = true := (ciEquiv_iff kr k1).mpr hr
  have er2 : ciEquiv kr k2 = true := (ciEquiv_iff kr k2).mpr (hr.trans h2.symm)
  have l2 : ci_less k2 k1 = false := by
    have := e2
    simp only [ciEquiv, Bool.and_eq_true, Bool.not_eq_true'] at this
    exact this.1
  refine ⟨?_, ?_, ?_⟩
  · show mmFind kf [(k1, v1)] = some (k1, v1)
    simp [mmFind, ef]
  · show mmInsert k2 v2 [(k1, v1)] = [(k1, v1), (k2, v2)]
    simp [mmInsert, l2]
  · have hl : mmInsert k2 v2 (mmInsert k1 v1 []) = [(k1, v1), (k2, v2)] := by
      show mmInsert k2 v2 [(k1, v1)] = [(k1, v1), (k2, v2)]
      simp [mmInsert, l2]
    rw [hl]
    simp [mmEqualRange, List.filter, er1, er2]

/-- Witness for C9 with the spellings from the spec: insert "host", find
"Host", add "HOST", retrieve both under "hOsT". -/
theorem C9_case_insensitive_witness :
    mmFind "Host" (mmInsert "host" "a" []) = some ("host", "a") ∧
    mmInsert "HOST" "b" (mmInsert "host" "a" []) = [("host", "a"), ("HOST", "b")] ∧
    mmEqualRange "hOsT" (mmInsert "HOST" "b" (mmInsert "host" "a" [])) =
      [("host", "a"), ("HOST", "b")] :=
  C9_case_insensitive_multimap "host" "Host" "HOST" "hOsT" "a" "b"
    (by decide) (by decide) (by decide)

/-- Construction acquires and releases nothing. -/
lemma StateInit_counts (now : Nat) (req : Request) :
    countAcquires (StateInit now req).2 = 0 ∧ countReleases (StateInit now req).2 = 0 := by
  by_cases h : (NormaliseRequest now req).url.protocol ≠ "http" <;>
    simp [StateInit, h, countAcquires, countReleases, isAcquire, isRelease]

/-- `MakeRequest` either exits still holding the one connection it
acquired, or exits having acquired and released equally often (at most
once). -/
lemma MakeRequest_counts (req : Request) (env : TransportEnv) :
    ((MakeRequest req env).1 = true →
      countAcquires (MakeRequest req env).2 = 1 ∧
      countReleases (MakeRequest req env).2 = 0) ∧
    ((MakeRequest req env).1 = false →
      countAcquires (MakeRequest req env).2 = countReleases (MakeRequest req env).2 ∧
      countAcquires (MakeRequest req env).2 ≤ 1) := by
  unfold MakeRequest
  split
  · simp [countAcquires, countReleases, isAcquire, isRelease]
  · split
    · simp [countAcquires, countReleases, isAcquire, isRelease]
    · split <;> simp [countAcquires, countReleases, isAcquire, isRelease]

/-- The completion callback acquires nothing and releases exactly once. -/
lemma RequestDone_counts (input : Option TResponse) (resp : Response) :
    countAcquires (RequestDone input resp).2 = 0 ∧
    countReleases (RequestDone input resp).2 = 1 := by
  unfold RequestDone
  rcases input with _ | t
  · simp [countAcquires, countReleases, isAcquire, isRelease]
  · dsimp only
    split <;> simp [countAcquires, countReleases, isAcquire, isRelease]

/-- On a request the constructor accepts (protocol "http"), nothing is
returned at construction, so the `State` lives until its terminal Return
and the destruction-aware trace coincides with the statement-level one. -/
lemma runFetchToDestruction_eq_runFetch (ctorNow : Nat) (req : Request)
    (env : TransportEnv) (resp : Response) (hp : req.url.protocol = "http") :
    runFetchToDestruction ctorNow req env resp = runFetch ctorNow req env resp := by
  have hs2 : (StateInit ctorNow req).2 = [] := by
    unfold StateInit
    rw [if_neg]
    simp [normalise_protocol, hp]
  simp only [runFetchToDestruction, runFetch, hs2]
  simp

/-- On an accepted ("http") request, pool acquisitions and releases
balance over the whole transaction up to destruction, with at most one
acquisition: the handle leak is confined to the unsupported-protocol
path. -/
lemma connection_balance_of_http (ctorNow : Nat) (req : Request)
    (env : TransportEnv) (resp : Response) (hp : req.url.protocol = "http") :
    countAcquires (runFetchToDestruction ctorNow req env resp).2 =
      countReleases (runFetchToDestruction ctorNow req env resp).2 ∧
    countAcquires (runFetchToDestruction ctorNow req env resp).2 ≤ 1 := by
  rw [runFetchToDestruction_eq_runFetch ctorNow req env resp hp]
  have hs := StateInit_counts ctorNow req
  have hm := MakeRequest_counts (StateInit ctorNow req).1 env
  have hd := RequestDone_counts env.callback resp
  simp only [runFetch]
  by_cases hheld : (MakeRequest (StateInit ctorNow req).1 env).1 = true
  · rw [if_pos hheld]
    have h1 := hm.1 hheld
    simp only [countAcquires, countReleases, List.countP_append] at *
    omega
  · rw [if_neg hheld]
    have h2 := hm.2 (by simpa using hheld)
    simp only [countAcquires, countReleases, List.countP_append] at *
    omega

/-- C6: a completion callback carrying a response stores the status code;
below 100 it returns FAILED_PRECONDITION, and at 100 or above it copies
status, every header and the whole body into the output response and
returns OK. -/
theorem C6_status_code_boundary (t : TResponse) (resp : Response) :
    (t.status < 100 →
      (RequestDone (some t) resp).1.status_code = t.status ∧
      (RequestDone (some t) resp).2 =
        [Event.release, Event.taskReturn ErrorCode.FAILED_PRECONDITION]) ∧
    (100 ≤ t.status →
      (RequestDone (some t) resp).1.status_code = t.status ∧
      (RequestDone (some t) resp).1.headers = copyHeaders t.headers ∧
      List.Perm (RequestDone (some t) resp).1.headers t.headers ∧
      (RequestDone (some t) resp).1.body = t.body ∧
      (RequestDone (some t) resp).2 = [Event.release, Event.taskReturn ErrorCode.OK]) := by
  constructor
  · intro h
    unfold RequestDone
    dsimp only
    rw [if_pos h]
    exact ⟨rfl, rfl⟩
  · intro h
    unfold RequestDone
    dsimp only
    rw [if_neg (not_lt.mpr h)]
    exact ⟨rfl, rfl, copyHeaders_perm t.headers, rfl, rfl⟩

/-- The all-unset output response a caller passes in. -/
def freshResponse : Response := ⟨0, [], ""⟩

/-- Witness for C6 at the boundary: status 99 and status 100. -/
theorem C6_status_code_witness :
    (RequestDone (some ⟨99, [], ""⟩) freshResponse).2 =
      [Event.release, Event.taskReturn ErrorCode.FAILED_PRECONDITION] ∧
    (RequestDone (some ⟨100, [("a", "b")], "x"⟩) freshResponse).1.body = "x" ∧
    (RequestDone (some ⟨100, [("a", "b")], "x"⟩) freshResponse).2 =
      [Event.release, Event.taskReturn ErrorCode.OK] := by
  obtain ⟨h99, _⟩ := C6_status_code_boundary ⟨99, [], ""⟩ freshResponse
  obtain ⟨_, h100⟩ := C6_status_code_boundary ⟨100, [("a", "b")], "x"⟩ freshResponse
  obtain ⟨_, _, _, hb, he⟩ := h100 (by decide)
  exact ⟨(h99 (by decide)).2, hb, he⟩

/-- A GET request for a "https" URL, the unsupported-protocol input. -/
def httpsGetReq : Request := ⟨Verb.GET, ⟨"https", "example.com", 443, "/", ""⟩, [], "", 0⟩

/-- A benign transport environment: clock at 1, no libevent failure, and a
200 response with one header eventually delivered to the callback. -/
def benignEnv : TransportEnv := ⟨1, false, false, some ⟨200, [("X-Test", "1")], "hi"⟩⟩

/-- C1 (code bug evidence): on the unsupported-protocol input the task is
returned INVALID_ARGUMENT at construction, yet the transaction still
acquires a connection from the pool, because `UrlFetcher::Fetch` schedules
`State::MakeRequest` unconditionally after constructing the state. -/
theorem C1_invalid_protocol_still_acquires :
    completion (runFetch 0 httpsGetReq benignEnv freshResponse).2 =
      some ErrorCode.INVALID_ARGUMENT ∧
    countAcquires (runFetch 0 httpsGetReq benignEnv freshResponse).2 = 1 := by decide

/-- C2 (code bug evidence): on the unsupported-protocol input
`task_->Return` is called twice over the transaction: once with
INVALID_ARGUMENT by the constructor and once with OK by the completion
callback of the still-submitted request. -/
theorem C2_double_task_return :
    returnsOf (runFetch 0 httpsGetReq benignEnv freshResponse).2 =
      [ErrorCode.INVALID_ARGUMENT, ErrorCode.OK] := by decide

/-- C3 (code bug evidence): on the unsupported-protocol input the
transaction acquires a connection yet is destroyed still holding it — the
trace up to the destruction of the `State` contains one acquisition and
no release, and the destructor runs with the handle still held — so the
handle is never put back into the pool and `CHECK(!conn_)`
(url_fetcher.cc:67) fires. -/
theorem C3_connection_leaked_on_invalid_protocol :
    countAcquires (runFetchToDestruction 0 httpsGetReq benignEnv freshResponse).2 = 1 ∧
    countReleases (runFetchToDestruction 0 httpsGetReq benignEnv freshResponse).2 = 0 ∧
    destroyedHoldingConnection 0 httpsGetReq benignEnv = true := by decide

/-- C5 amended: for a request whose protocol is "http" and whose
normalised deadline has already passed when `MakeRequest` runs, the task
completes DEADLINE_EXCEEDED and no connection is ever acquired. -/
theorem C5_deadline_exceeded (ctorNow : Nat) (req : Request)
    (env : TransportEnv) (resp : Response)
    (hp : req.url.protocol = "http")
    (hd : (NormaliseRequest ctorNow req).deadline ≤ env.sendNow) :
    completion (runFetch ctorNow req env resp).2 = some ErrorCode.DEADLINE_EXCEEDED ∧
    countAcquires (runFetch ctorNow req env resp).2 = 0 := by
  have hs2 : (StateInit ctorNow req).2 = [] := by
    unfold StateInit
    rw [if_neg]
    simp [normalise_protocol, hp]
  have hs1 : (StateInit ctorNow req).1 = NormaliseRequest ctorNow req := by
    by_cases h : (NormaliseRequest ctorNow req).url.protocol ≠ "http" <;>
      simp [StateInit, h]
  have hmr : MakeRequest (StateInit ctorNow req).1 env =
      (false, [Event.taskReturn ErrorCode.DEADLINE_EXCEEDED]) := by
    rw [hs1]
    unfold MakeRequest
    rw [if_pos hd]
  simp only [runFetch, hmr, hs2]
  rw [if_neg (by simp)]
  simp [completion, returnsOf, countAcquires, isAcquire]

/-- An "http" request whose explicit deadline (5) is already past. -/
def c5Req : Request := ⟨Verb.GET, ⟨"http", "example.com", 80, "/", ""⟩, [], "", 5⟩

/-- A transport environment whose clock (10) is past that deadline. -/
def c5Env : TransportEnv := ⟨10, false, false, none⟩

/-- Witness for the amended C5 at a concrete expired request. -/
theorem C5_deadline_exceeded_witness :
    completion (runFetch 0 c5Req c5Env freshResponse).2 =
      some ErrorCode.DEADLINE_EXCEEDED ∧
    countAcquires (runFetch 0 c5Req c5Env freshResponse).2 = 0 :=
  C5_deadline_exceeded 0 c5Req c5Env freshResponse rfl (by decide)

/-- The same expired deadline on a "https" request: the unsupported
protocol has already returned the task. -/
def c5BadReq : Request := ⟨Verb.GET, ⟨"https", "example.com", 443, "/", ""⟩, [], "", 5⟩

/-- C5 counterexample: a request whose normalised deadline has passed at
send time but whose protocol is not "http" completes INVALID_ARGUMENT, not
DEADLINE_EXCEEDED, so the claim as stated (over every request) fails. -/
theorem C5_counterexample :
    (NormaliseRequest 0 c5BadReq).deadline ≤ c5Env.sendNow ∧
    completion (runFetch 0 c5BadReq c5Env freshResponse).2 ≠
      some ErrorCode.DEADLINE_EXCEEDED := by decide

/-- C7 counterexample: on the status-below-100 failure path the output
response is modified (its status code is stored before the check), so the
claim that every failure path leaves the output response unmodified
fails. -/
theorem C7_counterexample :
    (RequestDone (some ⟨99, [], ""⟩) freshResponse).1 ≠ freshResponse ∧
    returnsOf (RequestDone (some ⟨99, [], ""⟩) freshResponse).2 =
      [ErrorCode.FAILED_PRECONDITION] := by decide

/-- C7 amended: failures before submission leave the whole output response
untouched; a null-response callback leaves it untouched; a status-below-100
callback writes only the status code, leaving headers and body untouched;
headers and body are written only by the success branch. -/
theorem C7_failure_frame (ctorNow : Nat) (req : Request)
    (env : TransportEnv) (resp : Response) :
    ((MakeRequest (StateInit ctorNow req).1 env).1 = false →
      (runFetch ctorNow req env resp).1 = resp) ∧
    ((RequestDone none resp).1 = resp) ∧
    (∀ t : TResponse, t.status < 100 →
      (RequestDone (some t) resp).1.headers = resp.headers ∧
      (RequestDone (some t) resp).1.body = resp.body ∧
      (RequestDone (some t) resp).1.status_code = t.status) := by
  refine ⟨?_, rfl, ?_⟩
  · intro h
    simp only [runFetch]
    rw [if_neg (by simp [h])]
  · intro t h
    unfold RequestDone
    dsimp only
    rw [if_pos h]
    exact ⟨rfl, rfl, rfl⟩

/-- A transport environment where `evhttp_make_request` fails. -/
def c7Env : TransportEnv := ⟨1, false, true, none⟩

/-- Witness for the amended C7: a failed submission returns the caller's
response untouched, and a status-99 callback leaves headers and body
untouched. -/
theorem C7_failure_frame_witness :
    (runFetch 0 c5Req c7Env freshResponse).1 = freshResponse ∧
    (RequestDone (some ⟨99, [], ""⟩) freshResponse).1.headers = freshResponse.headers ∧
    (RequestDone (some ⟨99, [], ""⟩) freshResponse).1.body = freshResponse.body := by
  obtain ⟨h1, _, h3⟩ := C7_failure_frame 0 c5Req c7Env freshResponse
  obtain ⟨hh, hb, _⟩ := h3 ⟨99, [], ""⟩ (by decide)
  exact ⟨h1 (by decide), hh, hb⟩

end CertTrans
